import Mathlib

/-!
Shallow embedding of the websocket-acc proximity-pairing server
(src/api.py, src/models.py, src/pairing_service.py, src/relay_service.py)
and verification of the specification's claims about it.

Python floats are modelled as real numbers; Python dicts keyed by strings
are modelled as functions `String → Option String` (with `setMap`/`popMap`
mirroring `d[k] = v` and `d.pop(k, None)`), and the `defaultdict` spatial
grid is modelled as an association list so that `list(keys())` iteration
and eager deletion of empty buckets in `_remove_from_grid` can be mirrored.
WebSocket handles are opaque and modelled as naturals.
-/

open Real

noncomputable section
open Classical

/-- `d[k] = v` on a Python dict modelled as a function. -/
def setMap (m : String → Option String) (k v : String) : String → Option String :=
  fun x => if x = k then some v else m x

/-- `d.pop(k, None)`'s effect on a Python dict modelled as a function. -/
def popMap (m : String → Option String) (k : String) : String → Option String :=
  fun x => if x = k then none else m x

namespace Py

/-- Python `math.radians`. -/
def radians (x : ℝ) : ℝ := x * π / 180

/-- Python `math.degrees`. -/
def degrees (x : ℝ) : ℝ := x * 180 / π

/-- Python `math.atan2 y x` (real-number idealization; no signed zero). -/
def atan2 (y x : ℝ) : ℝ :=
  if 0 < x then arctan (y / x)
  else if x < 0 then
    (if 0 ≤ y then arctan (y / x) + π else arctan (y / x) - π)
  else if 0 < y then π / 2
  else if y < 0 then -(π / 2)
  else 0

/-- Python float modulo `x % y` (sign follows the divisor): `x - y*⌊x/y⌋`. -/
def pymod (x y : ℝ) : ℝ := x - y * (⌊x / y⌋ : ℤ)

end Py

namespace Api

/-- `class Device` from src/api.py. -/
structure Device where
  device_id : String
  heading : ℝ
  latitude : ℝ
  longitude : ℝ
  accuracy : ℝ
  moved : Bool

/-- `ConnectionManager.__init__` state from src/api.py: `active_connections`
is a list of `(websocket, device, last_device)` triples, `device_grid` maps
rounded cells to `(websocket, device)` entries, `pairings` maps
`device_id -> paired_device_id`. -/
structure ManagerState where
  active_connections : List (ℕ × Option Device × Option Device)
  device_grid : List ((ℝ × ℝ) × List (ℕ × Device))
  pairings : String → Option String
  cache_hits : ℕ
  cache_misses : ℕ

/-- `round(x, 3)` used by `_get_cell` (idealized: round half away from
half-even is irrelevant to any claim; we use Mathlib's `round`). -/
def round3 (x : ℝ) : ℝ := ((round (x * 1000) : ℤ) : ℝ) / 1000

/-- `ConnectionManager._get_cell` (precision 3). -/
def get_cell (d : Device) : ℝ × ℝ := (round3 d.latitude, round3 d.longitude)

/-- `ConnectionManager._get_neighboring_cells`. -/
def get_neighboring_cells (cell : ℝ × ℝ) : List (ℝ × ℝ) :=
  let offsets : List ℝ := [-0.001, 0, 0.001]
  offsets.flatMap fun dlat =>
    offsets.map fun dlon => (round3 (cell.1 + dlat), round3 (cell.2 + dlon))

/-- `ConnectionManager._calculate_distance`: haversine with R = 6371000 m. -/
def calculate_distance (d1 d2 : Device) : ℝ :=
  let R : ℝ := 6371000
  let phi1 := Py.radians d1.latitude
  let phi2 := Py.radians d2.latitude
  let delta_phi := Py.radians (d2.latitude - d1.latitude)
  let delta_lambda := Py.radians (d2.longitude - d1.longitude)
  let a := Real.sin (delta_phi / 2) ^ 2 +
    Real.cos phi1 * Real.cos phi2 * Real.sin (delta_lambda / 2) ^ 2
  let c := 2 * Py.atan2 (Real.sqrt a) (Real.sqrt (1 - a))
  R * c

/-- `ConnectionManager._heading_diff`. -/
def heading_diff (h1 h2 : ℝ) : ℝ := min |h1 - h2| (360 - |h1 - h2|)

/-- `ConnectionManager._is_facing`: bearing from `front` to `back` via
`atan2(Δlon, Δlat)` in degrees mod 360, compared to `front`'s heading. -/
def is_facing (front back : Device) : Prop :=
  heading_diff front.heading
    (Py.pymod (Py.degrees (Py.atan2 (back.longitude - front.longitude)
      (back.latitude - front.latitude))) 360) ≤ 45

/-- Dict lookup `device_grid.get(cell, [])` (keys are unique in a dict,
so first-match lookup in the association list). -/
def gridGet (grid : List ((ℝ × ℝ) × List (ℕ × Device))) (cell : ℝ × ℝ) :
    List (ℕ × Device) :=
  match grid with
  | [] => []
  | (k, l) :: rest => if k = cell then l else gridGet rest cell

/-- `ConnectionManager._remove_from_grid`: filter the websocket out of every
bucket and delete buckets that become empty. -/
def remove_from_grid (ws : ℕ) (grid : List ((ℝ × ℝ) × List (ℕ × Device))) :
    List ((ℝ × ℝ) × List (ℕ × Device)) :=
  grid.filterMap fun b =>
    let l := b.2.filter fun e => e.1 != ws
    if l.isEmpty then none else some (b.1, l)

/-- `ConnectionManager._remove_pairings`: walk `active_connections` for the
first entry with this websocket and a device, pop its pairing entry and
(if that entry was truthy) the reverse entry, then stop. -/
def remove_pairings (ws : ℕ) (active : List (ℕ × Option Device × Option Device))
    (m : String → Option String) : String → Option String :=
  match active with
  | [] => m
  | (w, some d, _) :: rest =>
    if w = ws then
      let paired := m d.device_id
      let m1 := popMap m d.device_id
      match paired with
      | some pid => if pid = "" then m1 else popMap m1 pid
      | none => m1
    else remove_pairings ws rest m
  | (_, none, _) :: rest => remove_pairings ws rest m

/-- `ConnectionManager.disconnect`. The source filters the websocket out of
`self.active_connections` FIRST and only then calls `_remove_pairings`,
which searches the (already filtered) `self.active_connections`. -/
def disconnect (ws : ℕ) (st : ManagerState) : ManagerState :=
  let act := st.active_connections.filter fun e => e.1 != ws
  { active_connections := act
    device_grid := remove_from_grid ws st.device_grid
    pairings := remove_pairings ws act st.pairings
    cache_hits := st.cache_hits
    cache_misses := st.cache_misses }

/-- The loop body of `ConnectionManager.get_cached_pair`: scan
`active_connections` for a live device with the cached peer id that still
passes `distance <= 100 and (heading_diff <= 15 or TEST_MODE)`. An entry
whose state matches the id but fails the check does not stop the loop. -/
def cacheScan (tm : Bool) (d : Device) (pid : String) :
    List (ℕ × Option Device × Option Device) → Option (Device × ℝ)
  | [] => none
  | (_, some pd, _) :: rest =>
    if pd.device_id = pid then
      let distance := calculate_distance d pd
      let hd := heading_diff d.heading pd.heading
      if distance ≤ 100 ∧ (hd ≤ 15 ∨ tm = true) then some (pd, distance)
      else cacheScan tm d pid rest
    else cacheScan tm d pid rest
  | (_, none, _) :: rest => cacheScan tm d pid rest

/-- `ConnectionManager.get_cached_pair`. Returns the updated state and the
cached `(None, paired_device, distance)` triple on a hit; on a miss with a
cached id present, pops both directions of the pairing. The `pid = ""`
branch mirrors Python's falsiness test `if not paired_id`. -/
def get_cached_pair (tm : Bool) (st : ManagerState) (d : Device) :
    ManagerState × Option (Option ℕ × Device × ℝ) :=
  match st.pairings d.device_id with
  | none => (st, none)
  | some pid =>
    if pid = "" then (st, none)
    else
      match cacheScan tm d pid st.active_connections with
      | some (p, distance) =>
        ({ st with cache_hits := st.cache_hits + 1 }, some (none, p, distance))
      | none =>
        ({ st with pairings := popMap (popMap st.pairings d.device_id) pid }, none)

/-- `distance < min_distance` against the running best (initially `inf`,
modelled as `none`). -/
def beats (distance : ℝ) (best : Option (ℕ × Device × ℝ)) : Prop :=
  match best with
  | none => True
  | some b => distance < b.2.2

/-- The inner candidate loop of `find_paired_device` over one cell's
entries, threading the running best match. Grid entries always carry a
device, so only the self-id skip of the source's guard is live. -/
def scanEntries (tm : Bool) (back : Device) :
    List (ℕ × Device) → Option (ℕ × Device × ℝ) → Option (ℕ × Device × ℝ)
  | [], best => best
  | (w, f) :: rest, best =>
    if f.device_id = back.device_id then scanEntries tm back rest best
    else
      let distance := calculate_distance back f
      let hd := heading_diff back.heading f.heading
      if distance ≤ 100 ∧ (hd ≤ 15 ∨ tm = true) ∧ (tm = true ∨ is_facing f back) then
        if beats distance best then scanEntries tm back rest (some (w, f, distance))
        else scanEntries tm back rest best
      else scanEntries tm back rest best

/-- The outer cell loop of `find_paired_device`. -/
def scanCells (tm : Bool) (back : Device)
    (grid : List ((ℝ × ℝ) × List (ℕ × Device))) :
    List (ℝ × ℝ) → Option (ℕ × Device × ℝ) → Option (ℕ × Device × ℝ)
  | [], best => best
  | c :: cs, best =>
    scanCells tm back grid cs (scanEntries tm back (gridGet grid c) best)

/-- The fresh-search tail of `find_paired_device` (everything after the
cache miss): scan the 9 neighboring cells and, if a best match was found,
record the pairing in both directions. -/
def scan_for_match (tm : Bool) (st : ManagerState) (back : Device) :
    ManagerState × Option (Option ℕ × Device × ℝ) :=
  let cells := get_neighboring_cells (get_cell back)
  match scanCells tm back st.device_grid cells none with
  | some (w, f, distance) =>
    let m := setMap (setMap st.pairings back.device_id f.device_id) f.device_id back.device_id
    ({ st with pairings := m }, some (some w, f, distance))
  | none => (st, none)

/-- `ConnectionManager.find_paired_device`: consult the cache; on a miss
increment `cache_misses` and fall through to the grid scan. -/
def find_paired_device (tm : Bool) (st : ManagerState) (back : Device) :
    ManagerState × Option (Option ℕ × Device × ℝ) :=
  match get_cached_pair tm st back with
  | (st1, some r) => (st1, some r)
  | (st1, none) =>
    scan_for_match tm { st1 with cache_misses := st1.cache_misses + 1 } back

/-- The live states in `active_connections` carrying a given device id
(the states `get_cached_pair`'s loop can see for the cached peer id). -/
def liveMatches (active : List (ℕ × Option Device × Option Device))
    (pid : String) : List Device :=
  active.filterMap fun e =>
    match e.2.1 with
    | some pd => if pd.device_id = pid then some pd else none
    | none => none

/-- Symmetry of the pairing map: every entry has its reverse entry. -/
def PairSymm (m : String → Option String) : Prop :=
  ∀ a b, m a = some b → m b = some a

end Api

namespace Models

/-- `class Device` from src/models.py (no `moved` flag). -/
structure Device where
  device_id : String
  heading : ℝ
  latitude : ℝ
  longitude : ℝ
  accuracy : ℝ

/-- `haversine` from src/models.py (same formula as api.py's
`_calculate_distance`, on raw coordinates). -/
def haversine (lat1 lon1 lat2 lon2 : ℝ) : ℝ :=
  let R : ℝ := 6371000
  let phi1 := Py.radians lat1
  let phi2 := Py.radians lat2
  let dphi := Py.radians (lat2 - lat1)
  let dlambda := Py.radians (lon2 - lon1)
  let a := Real.sin (dphi / 2) ^ 2 +
    Real.cos phi1 * Real.cos phi2 * Real.sin (dlambda / 2) ^ 2
  R * 2 * Py.atan2 (Real.sqrt a) (Real.sqrt (1 - a))

end Models

namespace PairingService

/-- `PairingService.static_test_pairs` (a Python set of two symmetric
pairs; modelled as a list — only membership and a symmetric-outcome
iteration are ever used, so the set's unordered iteration is harmless). -/
def static_test_pairs : List (String × String) :=
  [("test1", "test2"), ("test2", "test1")]

/-- The mutable state of `PairingService` that the claims depend on
(`last_sent` only feeds the time-based `should_notify` throttle). -/
structure State where
  pairings : String → Option String

/-- `PairingService._register_pair`. -/
def register_pair (ps : State) (id1 id2 : String) : State :=
  { pairings := setMap (setMap ps.pairings id1 id2) id2 id1 }

/-- The "static forced pairing" loop of `pair_device`: first candidate
whose id forms a static test pair with the reporting device. -/
def staticScan (did : String) : List Models.Device → Option Models.Device
  | [] => none
  | o :: rest =>
    if (did, o.device_id) ∈ static_test_pairs then some o else staticScan did rest

/-- The "general pairing logic" loop of `pair_device`: skip self and
already-paired candidates; pair with the first candidate within 50 m whose
raw heading difference `abs(device.heading - other.heading)` is below 45. -/
def generalScan (ps : State) (d : Models.Device) :
    List Models.Device → Option Models.Device
  | [] => none
  | o :: rest =>
    if d.device_id = o.device_id ∨ (ps.pairings o.device_id).isSome then
      generalScan ps d rest
    else
      let dist := Models.haversine d.latitude d.longitude o.latitude o.longitude
      let hd := |d.heading - o.heading|
      if dist < 50 ∧ hd < 45 then some o else generalScan ps d rest

/-- The "optional fallback static test pairing" loop of `pair_device`:
for each static pair, if the reporting device is one side and the other
side is in the registry, pair them. -/
def fallbackStatic (reg : String → Option Models.Device) (did : String) :
    List (String × String) → Option (String × String × Models.Device)
  | [] => none
  | (id1, id2) :: rest =>
    match (if did = id1 then reg id2 else none) with
    | some dev => some (id1, id2, dev)
    | none =>
      match (if did = id2 then reg id1 else none) with
      | some dev => some (id2, id1, dev)
      | none => fallbackStatic reg did rest

/-- `PairingService.pair_device`. `reg` is the injected
`get_all_devices()` registry callback. Already-paired devices are answered
from the pairing map (`reg peer_id`, possibly `none`); otherwise the
static, general, and fallback-static scans run in order. -/
def pair_device (reg : String → Option Models.Device) (ps : State)
    (device : Models.Device) (candidates : List Models.Device) :
    State × Option Models.Device :=
  match ps.pairings device.device_id with
  | some peer_id => (ps, reg peer_id)
  | none =>
    match staticScan device.device_id candidates with
    | some o => (register_pair ps device.device_id o.device_id, some o)
    | none =>
      match generalScan ps device candidates with
      | some o => (register_pair ps device.device_id o.device_id, some o)
      | none =>
        match fallbackStatic reg device.device_id static_test_pairs with
        | some (id1, id2, dev) => (register_pair ps id1 id2, some dev)
        | none => (ps, none)

/-- `PairingService.validate_pairing`: a stub that changes nothing. -/
def validate_pairing (ps : State) : State := ps

end PairingService

namespace RelayService

/-- `RelayService.forward` from src/relay_service.py. When `to_device_id`
has no live websocket the function silently does nothing. When it does,
the source builds the message dict with `int(time.time() * 1000)` — but
relay_service.py never imports `time`, so under Python semantics this
raises `NameError` while constructing the message, BEFORE the
`try`/`except` that guards only the `send_text` call; the exception
therefore escapes `forward`. The embedding records that escape as an
`Except.error`. -/
def forward (device_to_ws : String → Option ℕ) (from_device : Api.Device)
    (to_device_id : String) : Except String Unit :=
  match device_to_ws to_device_id with
  | none => Except.ok ()
  | some _ => Except.error "NameError: name time is not defined"

end RelayService

/-! ### Evaluation lemmas for the geometry at coincident coordinates -/

theorem atan2_zero_pos (x : ℝ) (hx : 0 < x) : Py.atan2 0 x = 0 := by
  unfold Py.atan2
  rw [if_pos hx]
  simp

theorem atan2_zero_zero : Py.atan2 0 0 = 0 := by
  unfold Py.atan2
  simp

theorem pymod_zero (y : ℝ) : Py.pymod 0 y = 0 := by
  unfold Py.pymod
  simp

theorem calculate_distance_same (d1 d2 : Api.Device)
    (hlat : d2.latitude = d1.latitude) (hlon : d2.longitude = d1.longitude) :
    Api.calculate_distance d1 d2 = 0 := by
  unfold Api.calculate_distance
  rw [hlat, hlon]
  simp only [sub_self]
  unfold Py.radians
  simp only [zero_mul, zero_div, mul_zero, Real.sin_zero, ne_eq, OfNat.ofNat_ne_zero,
    not_false_eq_true, zero_pow, zero_add, mul_zero, add_zero, sub_zero,
    Real.sqrt_zero, Real.sqrt_one]
  rw [atan2_zero_pos 1 one_pos]
  ring

theorem haversine_same (lat lon : ℝ) : Models.haversine lat lon lat lon = 0 := by
  unfold Models.haversine
  simp only [sub_self]
  unfold Py.radians
  simp only [zero_mul, zero_div, mul_zero, Real.sin_zero, ne_eq, OfNat.ofNat_ne_zero,
    not_false_eq_true, zero_pow, zero_add, mul_zero, add_zero, sub_zero,
    Real.sqrt_zero, Real.sqrt_one]
  rw [atan2_zero_pos 1 one_pos]
  ring

theorem is_facing_same (front back : Api.Device)
    (hlat : back.latitude = front.latitude) (hlon : back.longitude = front.longitude) :
    Api.is_facing front back ↔ Api.heading_diff front.heading 0 ≤ 45 := by
  unfold Api.is_facing
  rw [hlat, hlon]
  simp only [sub_self, atan2_zero_zero]
  unfold Py.degrees
  simp only [zero_mul, zero_div, pymod_zero]

theorem round3_of_int (x : ℝ) (n : ℤ) (h : x * 1000 = (n : ℝ)) :
    Api.round3 x = (n : ℝ) / 1000 := by
  unfold Api.round3
  rw [h, round_intCast]

/-! ### Concrete scenario states

Four devices all reporting from (0, 0) with heading 0. `stA` is a state in
which A and B hold a symmetric pairing and C is unpaired; `stW` is the same
connection/grid layout with an empty pairing map. -/

def devA : Api.Device :=
  { device_id := "A", heading := 0, latitude := 0, longitude := 0, accuracy := 0, moved := false }

def devB : Api.Device :=
  { device_id := "B", heading := 0, latitude := 0, longitude := 0, accuracy := 0, moved := false }

def devC : Api.Device :=
  { device_id := "C", heading := 0, latitude := 0, longitude := 0, accuracy := 0, moved := false }

def devD : Api.Device :=
  { device_id := "D", heading := 0, latitude := 0, longitude := 0, accuracy := 0, moved := false }

def pairAB : String → Option String :=
  fun x => if x = "A" then some "B" else if x = "B" then some "A" else none

def activeA : List (ℕ × Option Api.Device × Option Api.Device) :=
  [(1, some devA, some devA), (2, some devB, some devB),
   (3, some devC, some devC), (4, some devD, some devD)]

def gridA : List ((ℝ × ℝ) × List (ℕ × Api.Device)) :=
  [((0, 0), [(1, devA), (2, devB), (3, devC), (4, devD)])]

def stA : Api.ManagerState :=
  { active_connections := activeA, device_grid := gridA, pairings := pairAB,
    cache_hits := 0, cache_misses := 0 }

def stW : Api.ManagerState :=
  { active_connections := activeA, device_grid := gridA, pairings := fun _ => none,
    cache_hits := 0, cache_misses := 0 }

/-- The nine cells scanned around (0, 0). -/
def cellsC : List (ℝ × ℝ) :=
  [(-(1/1000), -(1/1000)), (-(1/1000), 0), (-(1/1000), 1/1000),
   (0, -(1/1000)), (0, 0), (0, 1/1000),
   (1/1000, -(1/1000)), (1/1000, 0), (1/1000, 1/1000)]

theorem cells_devC : Api.get_neighboring_cells (Api.get_cell devC) = cellsC := by
  have h0 : Api.round3 0 = 0 := by
    rw [round3_of_int 0 0 (by norm_num)]; norm_num
  have hneg : Api.round3 ((0 : ℝ) + -0.001) = -(1/1000) := by
    rw [round3_of_int _ (-1) (by norm_num)]; norm_num
  have hz : Api.round3 ((0 : ℝ) + 0) = 0 := by
    rw [round3_of_int _ 0 (by norm_num)]; norm_num
  have hpos : Api.round3 ((0 : ℝ) + 0.001) = 1/1000 := by
    rw [round3_of_int _ 1 (by norm_num)]; norm_num
  unfold Api.get_neighboring_cells Api.get_cell
  simp only [devC, h0]
  simp only [List.flatMap_cons, List.map_cons, List.map_nil, List.flatMap_nil,
    List.append_nil, hneg, hz, hpos, cellsC]
  norm_num

theorem scanEntries_nil (tm : Bool) (back : Api.Device) (best : Option (ℕ × Api.Device × ℝ)) :
    Api.scanEntries tm back [] best = best := rfl

theorem gridGetA_eq : Api.gridGet gridA (0, 0) = [(1, devA), (2, devB), (3, devC), (4, devD)] := by
  simp [Api.gridGet, gridA]

theorem gridGetA_ne (c : ℝ × ℝ) (hc : c ≠ (0, 0)) : Api.gridGet gridA c = [] := by
  simp only [gridA, Api.gridGet]
  rw [if_neg fun h => hc h.symm]

theorem facing_devA : Api.is_facing devA devC := by
  rw [is_facing_same devA devC rfl rfl]
  norm_num [Api.heading_diff, devA]

theorem facing_devB : Api.is_facing devB devC := by
  rw [is_facing_same devB devC rfl rfl]
  norm_num [Api.heading_diff, devB]

theorem facing_devD : Api.is_facing devD devC := by
  rw [is_facing_same devD devC rfl rfl]
  norm_num [Api.heading_diff, devD]

theorem scanEntriesA :
    Api.scanEntries false devC [(1, devA), (2, devB), (3, devC), (4, devD)] none =
      some (1, devA, 0) := by
  have dA : Api.calculate_distance devC devA = 0 := calculate_distance_same _ _ rfl rfl
  have dB : Api.calculate_distance devC devB = 0 := calculate_distance_same _ _ rfl rfl
  have dD : Api.calculate_distance devC devD = 0 := calculate_distance_same _ _ rfl rfl
  have hd00 : Api.heading_diff 0 0 = 0 := by norm_num [Api.heading_diff]
  simp only [Api.scanEntries, dA, dB, dD,
    show devA.device_id = "A" from rfl, show devB.device_id = "B" from rfl,
    show devC.device_id = "C" from rfl, show devD.device_id = "D" from rfl,
    show devA.heading = (0 : ℝ) from rfl, show devB.heading = (0 : ℝ) from rfl,
    show devC.heading = (0 : ℝ) from rfl, show devD.heading = (0 : ℝ) from rfl,
    hd00, Api.beats]
  simp [facing_devA, facing_devB, facing_devD, show (0 : ℝ) ≤ 100 by norm_num,
    show (0 : ℝ) ≤ 15 by norm_num, show ¬(0 : ℝ) < 0 by norm_num]

theorem scanEvA : Api.scanCells false devC gridA cellsC none = some (1, devA, 0) := by
  have g1 : Api.gridGet gridA (-(1/1000), -(1/1000)) = [] :=
    gridGetA_ne _ (by norm_num [Prod.ext_iff])
  have g2 : Api.gridGet gridA (-(1/1000), 0) = [] :=
    gridGetA_ne _ (by norm_num [Prod.ext_iff])
  have g3 : Api.gridGet gridA (-(1/1000), 1/1000) = [] :=
    gridGetA_ne _ (by norm_num [Prod.ext_iff])
  have g4 : Api.gridGet gridA (0, -(1/1000)) = [] :=
    gridGetA_ne _ (by norm_num [Prod.ext_iff])
  have g6 : Api.gridGet gridA (0, 1/1000) = [] :=
    gridGetA_ne _ (by norm_num [Prod.ext_iff])
  have g7 : Api.gridGet gridA (1/1000, -(1/1000)) = [] :=
    gridGetA_ne _ (by norm_num [Prod.ext_iff])
  have g8 : Api.gridGet gridA (1/1000, 0) = [] :=
    gridGetA_ne _ (by norm_num [Prod.ext_iff])
  have g9 : Api.gridGet gridA (1/1000, 1/1000) = [] :=
    gridGetA_ne _ (by norm_num [Prod.ext_iff])
  simp only [cellsC, Api.scanCells, g1, g2, g3, g4, g6, g7, g8, g9, gridGetA_eq,
    scanEntries_nil, scanEntriesA]

/-- The state `find_paired_device` produces from `stA` for device C. -/
def stA' : Api.ManagerState :=
  { active_connections := activeA, device_grid := gridA,
    pairings := setMap (setMap pairAB "C" "A") "A" "C",
    cache_hits := 0, cache_misses := 1 }

/-- The state `find_paired_device` produces from `stW` for device C. -/
def stW' : Api.ManagerState :=
  { active_connections := activeA, device_grid := gridA,
    pairings := setMap (setMap (fun _ => none) "C" "A") "A" "C",
    cache_hits := 0, cache_misses := 1 }

theorem findEvA : Api.find_paired_device false stA devC = (stA', some (some 1, devA, 0)) := by
  simp [Api.find_paired_device, Api.get_cached_pair, Api.scan_for_match, stA, stA',
    pairAB, show devC.device_id = "C" from rfl, show devA.device_id = "A" from rfl,
    cells_devC, scanEvA]

theorem findEvW : Api.find_paired_device false stW devC = (stW', some (some 1, devA, 0)) := by
  simp [Api.find_paired_device, Api.get_cached_pair, Api.scan_for_match, stW, stW',
    show devC.device_id = "C" from rfl, show devA.device_id = "A" from rfl,
    cells_devC, scanEvA]

/-! ### Structural lemmas about the fresh-candidate scan -/

/-- The predicate a scanned candidate must pass in `find_paired_device`
(distance, co-orientation, facing — the latter two bypassed by test mode). -/
def passes (tm : Bool) (back f : Api.Device) : Prop :=
  Api.calculate_distance back f ≤ 100 ∧
    (Api.heading_diff back.heading f.heading ≤ 15 ∨ tm = true) ∧
    (tm = true ∨ Api.is_facing f back)

theorem cached_of_unpaired (tm : Bool) (st : Api.ManagerState) (d : Api.Device)
    (h : st.pairings d.device_id = none) : Api.get_cached_pair tm st d = (st, none) := by
  unfold Api.get_cached_pair
  rw [h]

theorem find_unpaired (tm : Bool) (st : Api.ManagerState) (back : Api.Device)
    (h : st.pairings back.device_id = none) :
    Api.find_paired_device tm st back =
      Api.scan_for_match tm { st with cache_misses := st.cache_misses + 1 } back := by
  unfold Api.find_paired_device
  rw [cached_of_unpaired tm st back h]

theorem scanEntries_sound (tm : Bool) (back : Api.Device) (es : List (ℕ × Api.Device)) :
    ∀ best r, Api.scanEntries tm back es best = some r →
      best = some r ∨ ∃ w f, (w, f) ∈ es ∧ r = (w, f, Api.calculate_distance back f) ∧
        f.device_id ≠ back.device_id ∧ passes tm back f := by
  induction es with
  | nil => exact fun best r h => Or.inl h
  | cons e rest ih =>
    intro best r h
    obtain ⟨w0, f0⟩ := e
    simp only [Api.scanEntries] at h
    by_cases hid : f0.device_id = back.device_id
    · rw [if_pos hid] at h
      rcases ih best r h with h1 | ⟨w, f, hm, hr⟩
      · exact Or.inl h1
      · exact Or.inr ⟨w, f, List.mem_cons_of_mem _ hm, hr⟩
    · rw [if_neg hid] at h
      by_cases hp : Api.calculate_distance back f0 ≤ 100 ∧
          (Api.heading_diff back.heading f0.heading ≤ 15 ∨ tm = true) ∧
          (tm = true ∨ Api.is_facing f0 back)
      · rw [if_pos hp] at h
        by_cases hb : Api.beats (Api.calculate_distance back f0) best
        · rw [if_pos hb] at h
          rcases ih _ r h with h1 | ⟨w, f, hm, hr⟩
          · exact Or.inr ⟨w0, f0, List.mem_cons_self _ _,
              (Option.some.inj h1).symm, hid, hp⟩
          · exact Or.inr ⟨w, f, List.mem_cons_of_mem _ hm, hr⟩
        · rw [if_neg hb] at h
          rcases ih best r h with h1 | ⟨w, f, hm, hr⟩
          · exact Or.inl h1
          · exact Or.inr ⟨w, f, List.mem_cons_of_mem _ hm, hr⟩
      · rw [if_neg hp] at h
        rcases ih best r h with h1 | ⟨w, f, hm, hr⟩
        · exact Or.inl h1
        · exact Or.inr ⟨w, f, List.mem_cons_of_mem _ hm, hr⟩

theorem scanEntries_some (tm : Bool) (back : Api.Device) (es : List (ℕ × Api.Device)) :
    ∀ best b, best = some b →
      ∃ b', Api.scanEntries tm back es best = some b' ∧ b'.2.2 ≤ b.2.2 := by
  induction es with
  | nil => exact fun best b hb => ⟨b, hb, le_refl _⟩
  | cons e rest ih =>
    intro best b hb
    obtain ⟨w0, f0⟩ := e
    simp only [Api.scanEntries]
    by_cases hid : f0.device_id = back.device_id
    · rw [if_pos hid]; exact ih best b hb
    · rw [if_neg hid]
      by_cases hp : Api.calculate_distance back f0 ≤ 100 ∧
          (Api.heading_diff back.heading f0.heading ≤ 15 ∨ tm = true) ∧
          (tm = true ∨ Api.is_facing f0 back)
      · rw [if_pos hp]
        by_cases hblt : Api.beats (Api.calculate_distance back f0) best
        · rw [if_pos hblt]
          obtain ⟨b', hb', hle⟩ := ih (some (w0, f0, Api.calculate_distance back f0)) _ rfl
          refine ⟨b', hb', le_trans hle ?_⟩
          have : Api.calculate_distance back f0 < b.2.2 := by
            have := hblt; rw [hb] at this; exact this
          exact le_of_lt this
        · rw [if_neg hblt]; exact ih best b hb
      · rw [if_neg hp]; exact ih best b hb

theorem scanEntries_le_best (tm : Bool) (back : Api.Device) (es : List (ℕ × Api.Device)) :
    ∀ best r b, Api.scanEntries tm back es best = some r → best = some b →
      r.2.2 ≤ b.2.2 := by
  induction es with
  | nil =>
    intro best r b h hb
    have h' : best = some r := h
    rw [hb] at h'
    rw [Option.some.inj h']
  | cons e rest ih =>
    intro best r b h hb
    obtain ⟨w0, f0⟩ := e
    simp only [Api.scanEntries] at h
    by_cases hid : f0.device_id = back.device_id
    · rw [if_pos hid] at h; exact ih best r b h hb
    · rw [if_neg hid] at h
      by_cases hp : Api.calculate_distance back f0 ≤ 100 ∧
          (Api.heading_diff back.heading f0.heading ≤ 15 ∨ tm = true) ∧
          (tm = true ∨ Api.is_facing f0 back)
      · rw [if_pos hp] at h
        by_cases hblt : Api.beats (Api.calculate_distance back f0) best
        · rw [if_pos hblt] at h
          have h1 := ih _ r (w0, f0, Api.calculate_distance back f0) h rfl
          have h2 : Api.calculate_distance back f0 < b.2.2 := by
            have := hblt; rw [hb] at this; exact this
          exact le_trans h1 (le_of_lt h2)
        · rw [if_neg hblt] at h; exact ih best r b h hb
      · rw [if_neg hp] at h; exact ih best r b h hb

theorem scanEntries_pass_some (tm : Bool) (back : Api.Device)
    (es : List (ℕ × Api.Device)) :
    ∀ best w f, (w, f) ∈ es → f.device_id ≠ back.device_id → passes tm back f →
      ∃ b', Api.scanEntries tm back es best = some b' := by
  induction es with
  | nil => intro best w f hm; exact absurd hm (List.not_mem_nil _)
  | cons e rest ih =>
    intro best w f hm hne hpass
    obtain ⟨w0, f0⟩ := e
    simp only [Api.scanEntries]
    by_cases hid : f0.device_id = back.device_id
    · rw [if_pos hid]
      rcases List.mem_cons.mp hm with heq | hm'
      · cases heq
        exact absurd hid hne
      · exact ih best w f hm' hne hpass
    · rw [if_neg hid]
      by_cases hp : Api.calculate_distance back f0 ≤ 100 ∧
          (Api.heading_diff back.heading f0.heading ≤ 15 ∨ tm = true) ∧
          (tm = true ∨ Api.is_facing f0 back)
      · rw [if_pos hp]
        by_cases hblt : Api.beats (Api.calculate_distance back f0) best
        · rw [if_pos hblt]
          obtain ⟨b', hb', _⟩ :=
            scanEntries_some tm back rest (some (w0, f0, Api.calculate_distance back f0)) _ rfl
          exact ⟨b', hb'⟩
        · rw [if_neg hblt]
          cases best with
          | none => exact absurd trivial hblt
          | some b =>
            obtain ⟨b', hb', _⟩ := scanEntries_some tm back rest (some b) b rfl
            exact ⟨b', hb'⟩
      · rw [if_neg hp]
        rcases List.mem_cons.mp hm with heq | hm'
        · exfalso
          cases heq
          exact hp hpass
        · exact ih best w f hm' hne hpass

theorem scanEntries_min (tm : Bool) (back : Api.Device) (es : List (ℕ × Api.Device)) :
    ∀ best r, Api.scanEntries tm back es best = some r →
      ∀ w f, (w, f) ∈ es → f.device_id ≠ back.device_id → passes tm back f →
        r.2.2 ≤ Api.calculate_distance back f := by
  induction es with
  | nil => intro best r _ w f hm; exact absurd hm (List.not_mem_nil _)
  | cons e rest ih =>
    intro best r h w f hm hne hpass
    obtain ⟨w0, f0⟩ := e
    simp only [Api.scanEntries] at h
    by_cases hid : f0.device_id = back.device_id
    · rw [if_pos hid] at h
      rcases List.mem_cons.mp hm with heq | hm'
      · exfalso
        cases heq
        exact hne hid
      · exact ih best r h w f hm' hne hpass
    · rw [if_neg hid] at h
      by_cases hp : Api.calculate_distance back f0 ≤ 100 ∧
          (Api.heading_diff back.heading f0.heading ≤ 15 ∨ tm = true) ∧
          (tm = true ∨ Api.is_facing f0 back)
      · rw [if_pos hp] at h
        by_cases hblt : Api.beats (Api.calculate_distance back f0) best
        · rw [if_pos hblt] at h
          rcases List.mem_cons.mp hm with heq | hm'
          · cases heq
            exact scanEntries_le_best tm back rest _ r
              (w, f, Api.calculate_distance back f) h rfl
          · exact ih _ r h w f hm' hne hpass
        · rw [if_neg hblt] at h
          cases best with
          | none => exact absurd trivial hblt
          | some b =>
            rcases List.mem_cons.mp hm with heq | hm'
            · cases heq
              have h1 := scanEntries_le_best tm back rest _ r b h rfl
              have h2 : b.2.2 ≤ Api.calculate_distance back f := le_of_not_lt hblt
              exact le_trans h1 h2
            · exact ih _ r h w f hm' hne hpass
      · rw [if_neg hp] at h
        rcases List.mem_cons.mp hm with heq | hm'
        · exfalso
          cases heq
          exact hp hpass
        · exact ih best r h w f hm' hne hpass

theorem scanCells_some (tm : Bool) (back : Api.Device)
    (grid : List ((ℝ × ℝ) × List (ℕ × Api.Device))) :
    ∀ (cells : List (ℝ × ℝ)) best b, best = some b →
      ∃ b', Api.scanCells tm back grid cells best = some b' ∧ b'.2.2 ≤ b.2.2 := by
  intro cells
  induction cells with
  | nil => exact fun best b hb => ⟨b, hb, le_refl _⟩
  | cons c cs ih =>
    intro best b hb
    obtain ⟨b1, hb1, hle1⟩ := scanEntries_some tm back (Api.gridGet grid c) best b hb
    obtain ⟨b', hb', hle'⟩ := ih (Api.scanEntries tm back (Api.gridGet grid c) best) b1 hb1
    exact ⟨b', hb', le_trans hle' hle1⟩

theorem scanCells_le_best (tm : Bool) (back : Api.Device)
    (grid : List ((ℝ × ℝ) × List (ℕ × Api.Device))) :
    ∀ (cells : List (ℝ × ℝ)) best r b,
      Api.scanCells tm back grid cells best = some r → best = some b →
      r.2.2 ≤ b.2.2 := by
  intro cells
  induction cells with
  | nil =>
    intro best r b h hb
    have h' : best = some r := h
    rw [hb] at h'
    rw [Option.some.inj h']
  | cons c cs ih =>
    intro best r b h hb
    obtain ⟨b1, hb1, hle1⟩ := scanEntries_some tm back (Api.gridGet grid c) best b hb
    have h2 := ih _ r b1 h hb1
    exact le_trans h2 hle1

theorem scanCells_sound (tm : Bool) (back : Api.Device)
    (grid : List ((ℝ × ℝ) × List (ℕ × Api.Device))) :
    ∀ (cells : List (ℝ × ℝ)) best r,
      Api.scanCells tm back grid cells best = some r →
      best = some r ∨ ∃ c, c ∈ cells ∧ ∃ w f, (w, f) ∈ Api.gridGet grid c ∧
        r = (w, f, Api.calculate_distance back f) ∧
        f.device_id ≠ back.device_id ∧ passes tm back f := by
  intro cells
  induction cells with
  | nil => exact fun best r h => Or.inl h
  | cons c cs ih =>
    intro best r h
    rcases ih _ r h with h1 | ⟨c', hc', rest⟩
    · rcases scanEntries_sound tm back (Api.gridGet grid c) best r h1 with h2 | ⟨w, f, hm, hr⟩
      · exact Or.inl h2
      · exact Or.inr ⟨c, List.mem_cons_self _ _, w, f, hm, hr⟩
    · exact Or.inr ⟨c', List.mem_cons_of_mem _ hc', rest⟩

theorem scanCells_min (tm : Bool) (back : Api.Device)
    (grid : List ((ℝ × ℝ) × List (ℕ × Api.Device))) :
    ∀ (cells : List (ℝ × ℝ)) best r,
      Api.scanCells tm back grid cells best = some r →
      ∀ c, c ∈ cells → ∀ w f, (w, f) ∈ Api.gridGet grid c →
        f.device_id ≠ back.device_id → passes tm back f →
        r.2.2 ≤ Api.calculate_distance back f := by
  intro cells
  induction cells with
  | nil => intro best r _ c hc; exact absurd hc (List.not_mem_nil _)
  | cons c0 cs ih =>
    intro best r h c hc w f hm hne hpass
    rcases List.mem_cons.mp hc with heq | hc'
    · subst heq
      obtain ⟨b1, hb1⟩ := scanEntries_pass_some tm back (Api.gridGet grid c) best w f hm hne hpass
    
      have hmin := scanEntries_min tm back (Api.gridGet grid c) best b1 hb1 w f hm hne hpass
      have h' : Api.scanCells tm back grid cs (Api.scanEntries tm back (Api.gridGet grid c) best) = some r := h
      rw [hb1] at h'
      have hle := scanCells_le_best tm back grid cs _ r b1 h' rfl
      exact le_trans hle hmin
    · exact ih _ r h c hc' w f hm hne hpass

theorem scan_for_match_spec (tm : Bool) (st : Api.ManagerState) (back : Api.Device)
    (w : Option ℕ) (f : Api.Device) (dist : ℝ)
    (h : (Api.scan_for_match tm st back).2 = some (w, f, dist)) :
    ∃ w', w = some w' ∧
      Api.scanCells tm back st.device_grid
        (Api.get_neighboring_cells (Api.get_cell back)) none = some (w', f, dist) ∧
      Api.scan_for_match tm st back =
        ({ st with pairings := setMap (setMap st.pairings back.device_id f.device_id) f.device_id back.device_id },
          some (some w', f, dist)) := by
  cases hs : Api.scanCells tm back st.device_grid
      (Api.get_neighboring_cells (Api.get_cell back)) none with
  | none =>
    have he : Api.scan_for_match tm st back = (st, none) := by
      simp only [Api.scan_for_match, hs]
    rw [he] at h
    simp at h
  | some b =>
    obtain ⟨w1, f1, dist1⟩ := b
    have he : Api.scan_for_match tm st back =
        ({ st with pairings := setMap (setMap st.pairings back.device_id f1.device_id) f1.device_id back.device_id },
          some (some w1, f1, dist1)) := by
      simp only [Api.scan_for_match, hs]
    rw [he] at h
    simp only [Option.some.injEq, Prod.mk.injEq] at h
    obtain ⟨hw, hf, hdist⟩ := h
    subst hf
    subst hdist
    exact ⟨w1, hw.symm, rfl, he⟩

/-! ### Cache-path lemmas -/

theorem liveMatches_nil (pid : String) : Api.liveMatches [] pid = [] := rfl

theorem cacheScan_hit (d p : Api.Device) (pid : String)
    (h100 : Api.calculate_distance d p ≤ 100)
    (h15 : Api.heading_diff d.heading p.heading ≤ 15) :
    ∀ act, Api.liveMatches act pid = [p] →
      Api.cacheScan false d pid act = some (p, Api.calculate_distance d p) := by
  intro act
  induction act with
  | nil => intro h; simp [Api.liveMatches] at h
  | cons e rest ih =>
    intro h
    obtain ⟨w0, pd?, last⟩ := e
    cases pd? with
    | none =>
      have h' : Api.liveMatches rest pid = [p] := by
        simpa [Api.liveMatches] using h
      simp only [Api.cacheScan]
      exact ih h'
    | some pd =>
      by_cases hid : pd.device_id = pid
      · have h2 : pd :: Api.liveMatches rest pid = [p] := by
          simpa [Api.liveMatches, hid] using h
        have hp : pd = p := (List.cons.injEq .. ▸ h2).1
        subst hp
        simp only [Api.cacheScan]
        rw [if_pos hid, if_pos ⟨h100, Or.inl h15⟩]
      · have h' : Api.liveMatches rest pid = [p] := by
          simpa [Api.liveMatches, hid] using h
        simp only [Api.cacheScan]
        rw [if_neg hid]
        exact ih h'

theorem cacheScan_none_of_empty (tm : Bool) (d : Api.Device) (pid : String) :
    ∀ act, Api.liveMatches act pid = [] → Api.cacheScan tm d pid act = none := by
  intro act
  induction act with
  | nil => intro _; rfl
  | cons e rest ih =>
    intro h
    obtain ⟨w0, pd?, last⟩ := e
    cases pd? with
    | none =>
      have h' : Api.liveMatches rest pid = [] := by simpa [Api.liveMatches] using h
      simp only [Api.cacheScan]
      exact ih h'
    | some pd =>
      by_cases hid : pd.device_id = pid
      · exfalso
        have h2 : pd :: Api.liveMatches rest pid = [] := by
          simpa [Api.liveMatches, hid] using h
        exact List.cons_ne_nil _ _ h2
      · have h' : Api.liveMatches rest pid = [] := by
          simpa [Api.liveMatches, hid] using h
        simp only [Api.cacheScan]
        rw [if_neg hid]
        exact ih h'

theorem cacheScan_none_stale (d p : Api.Device) (pid : String)
    (hstale : 100 < Api.calculate_distance d p ∨ 15 < Api.heading_diff d.heading p.heading) :
    ∀ act, Api.liveMatches act pid = [p] →
      Api.cacheScan false d pid act = none := by
  intro act
  induction act with
  | nil => intro h; simp [Api.liveMatches] at h
  | cons e rest ih =>
    intro h
    obtain ⟨w0, pd?, last⟩ := e
    cases pd? with
    | none =>
      have h' : Api.liveMatches rest pid = [p] := by simpa [Api.liveMatches] using h
      simp only [Api.cacheScan]
      exact ih h'
    | some pd =>
      by_cases hid : pd.device_id = pid
      · have h2 : pd :: Api.liveMatches rest pid = [p] := by
          simpa [Api.liveMatches, hid] using h
        have hp : pd = p := (List.cons.injEq .. ▸ h2).1
        have hr : Api.liveMatches rest pid = [] := (List.cons.injEq .. ▸ h2).2
        subst hp
        simp only [Api.cacheScan]
        rw [if_pos hid, if_neg ?_]
        · exact cacheScan_none_of_empty false d pid rest hr
        · rintro ⟨hd100, hd15⟩
          rcases hstale with hs | hs
          · exact absurd hd100 (not_le.mpr hs)
          · rcases hd15 with hd15 | hbool
            · exact absurd hd15 (not_le.mpr hs)
            · exact Bool.false_ne_true hbool
      · have h' : Api.liveMatches rest pid = [p] := by
          simpa [Api.liveMatches, hid] using h
        simp only [Api.cacheScan]
        rw [if_neg hid]
        exact ih h'

theorem get_cached_hit (st : Api.ManagerState) (d p : Api.Device) (pid : String)
    (hpid : st.pairings d.device_id = some pid) (hne : pid ≠ "")
    (hl : Api.liveMatches st.active_connections pid = [p])
    (h100 : Api.calculate_distance d p ≤ 100)
    (h15 : Api.heading_diff d.heading p.heading ≤ 15) :
    Api.get_cached_pair false st d =
      ({ st with cache_hits := st.cache_hits + 1 }, some (none, p, Api.calculate_distance d p)) := by
  simp only [Api.get_cached_pair, hpid, if_neg hne,
    cacheScan_hit d p pid h100 h15 st.active_connections hl]

theorem get_cached_miss (st : Api.ManagerState) (d : Api.Device) (pid : String)
    (hpid : st.pairings d.device_id = some pid) (hne : pid ≠ "")
    (hmiss : Api.cacheScan false d pid st.active_connections = none) :
    Api.get_cached_pair false st d =
      ({ st with pairings := popMap (popMap st.pairings d.device_id) pid }, none) := by
  simp only [Api.get_cached_pair, hpid, if_neg hne, hmiss]

/-! ### Disconnect lemmas -/

theorem remove_pairings_not_mem (ws : ℕ) (m : String → Option String) :
    ∀ act, (∀ e ∈ act, e.1 ≠ ws) → Api.remove_pairings ws act m = m := by
  intro act
  induction act with
  | nil => intro _; rfl
  | cons e rest ih =>
    intro h
    obtain ⟨w, pd?, last⟩ := e
    cases pd? with
    | none =>
      simp only [Api.remove_pairings]
      exact ih fun e he => h e (List.mem_cons_of_mem _ he)
    | some d =>
      simp only [Api.remove_pairings]
      rw [if_neg (h (w, some d, last) (List.mem_cons_self _ _))]
      exact ih fun e he => h e (List.mem_cons_of_mem _ he)

theorem disconnect_closed (ws : ℕ) (st : Api.ManagerState) :
    Api.disconnect ws st =
      { active_connections := st.active_connections.filter fun e => e.1 != ws,
        device_grid := Api.remove_from_grid ws st.device_grid,
        pairings := st.pairings,
        cache_hits := st.cache_hits, cache_misses := st.cache_misses } := by
  simp only [Api.disconnect]
  have hforall : ∀ e ∈ st.active_connections.filter (fun e => e.1 != ws), e.1 ≠ ws := by
    intro e he
    have h1 := List.of_mem_filter he
    exact bne_iff_ne.mp h1
  rw [remove_pairings_not_mem ws st.pairings _ hforall]

theorem filter_idem {α : Type} (p : α → Bool) :
    ∀ l : List α, (l.filter p).filter p = l.filter p := by
  intro l
  induction l with
  | nil => rfl
  | cons a t ih =>
    by_cases h : p a
    · simp [List.filter_cons, h, ih]
    · simp [List.filter_cons, h, ih]

theorem remove_from_grid_idem (ws : ℕ) :
    ∀ g, Api.remove_from_grid ws (Api.remove_from_grid ws g) =
      Api.remove_from_grid ws g := by
  intro g
  induction g with
  | nil => rfl
  | cons b g ih =>
    obtain ⟨c, l⟩ := b
    by_cases hl : (l.filter fun e => e.1 != ws).isEmpty
    · simp only [Api.remove_from_grid, List.filterMap_cons] at ih ⊢
      rw [if_pos hl]
      exact ih
    · simp only [Api.remove_from_grid, List.filterMap_cons] at ih ⊢
      rw [if_neg hl]
      simp only [List.filterMap_cons, filter_idem]
      rw [if_neg hl]
      rw [ih]

/-! ### Claim theorems -/

/-- C9: disconnect is idempotent — running `disconnect` a second time for
the same websocket does not change the connection list, the spatial index,
or the pairing map beyond what the first run did (and, being a total
function, it cannot raise). -/
theorem C9_disconnect_idempotent (ws : ℕ) (st : Api.ManagerState) :
    Api.disconnect ws (Api.disconnect ws st) = Api.disconnect ws st := by
  simp only [disconnect_closed, filter_idem, remove_from_grid_idem]

/-- State for the disconnect scenario: connections 1 (device A) and 2
(device B), both indexed in cell (0,0), with the symmetric pairing A↔B. -/
def stD : Api.ManagerState :=
  { active_connections := [(1, some devA, some devA), (2, some devB, some devB)],
    device_grid := [((0, 0), [(1, devA), (2, devB)])],
    pairings := pairAB, cache_hits := 0, cache_misses := 0 }

/-- C4 (code bug): disconnecting connection 1 (device A, paired with B)
removes A's connection state and grid entry, but leaves BOTH pairing
entries in place — `disconnect` filters the websocket out of
`active_connections` before `_remove_pairings` searches that same list, so
the unpair step never fires.  The claim says the pairing map afterwards
contains neither `A→B` nor `B→A`. -/
theorem C4_disconnect_keeps_pairings :
    (Api.disconnect 1 stD).pairings "A" = some "B" ∧
    (Api.disconnect 1 stD).pairings "B" = some "A" ∧
    (Api.disconnect 1 stD).active_connections = [(2, some devB, some devB)] ∧
    (Api.disconnect 1 stD).device_grid = [((0, 0), [(2, devB)])] :=
  ⟨rfl, rfl, rfl, rfl⟩

/-- A relay routing table in which device id "d2" has a live websocket. -/
def conns1 : String → Option ℕ := fun t => if t = "d2" then some 7 else none

/-- C8 (code bug): `RelayService.forward` is a silent no-op when the target
id has no live connection, but whenever the target IS connected it raises
`NameError` — relay_service.py builds the payload with
`int(time.time() * 1000)` without ever importing `time`, and the
`try`/`except` guards only the `send_text` call, not the payload
construction.  The claim says `forward` never raises. -/
theorem C8_forward_raises :
    RelayService.forward conns1 devA "d2" =
      Except.error "NameError: name time is not defined" ∧
    RelayService.forward conns1 devA "d9" = Except.ok () := by
  constructor <;> rfl

/-- C7 amended: `ConnectionManager._heading_diff` — the heading difference
used by api.py's pairing scan and cache revalidation — equals
`min(|h1-h2|, 360-|h1-h2|)` and lies in [0,180] for headings in [0,360]
(350° vs 5° gives 15°); `PairingService.pair_device`, by contrast, uses the
raw `abs(h1-h2)` (350° vs 5° gives 345, which its 45° gate rejects). -/
theorem C7_heading_diff_range (h1 h2 : ℝ) (ha : 0 ≤ h1) (hb : h1 ≤ 360)
    (hc : 0 ≤ h2) (hd : h2 ≤ 360) :
    Api.heading_diff h1 h2 = min |h1 - h2| (360 - |h1 - h2|) ∧
    0 ≤ Api.heading_diff h1 h2 ∧ Api.heading_diff h1 h2 ≤ 180 := by
  refine ⟨rfl, ?_, ?_⟩
  · unfold Api.heading_diff
    have habs : |h1 - h2| ≤ 360 := by
      rw [abs_le]
      constructor <;> linarith
    exact le_min (abs_nonneg _) (by linarith)
  · unfold Api.heading_diff
    rcases le_total |h1 - h2| 180 with h | h
    · exact le_trans (min_le_left _ _) h
    · exact le_trans (min_le_right _ _) (by linarith)

/-- C7 witness: the range theorem applied at the claim's own example,
headings 350° and 5°, where the difference evaluates to 15. -/
theorem C7_heading_diff_witness :
    (0 ≤ (350 : ℝ) ∧ (350 : ℝ) ≤ 360 ∧ 0 ≤ (5 : ℝ) ∧ (5 : ℝ) ≤ 360) ∧
    Api.heading_diff 350 5 = 15 ∧
    (Api.heading_diff 350 5 = min |(350 : ℝ) - 5| (360 - |(350 : ℝ) - 5|) ∧
      0 ≤ Api.heading_diff 350 5 ∧ Api.heading_diff 350 5 ≤ 180) :=
  ⟨by norm_num, by norm_num [Api.heading_diff, min_def],
    C7_heading_diff_range 350 5 (by norm_num) (by norm_num) (by norm_num) (by norm_num)⟩

def devU : Models.Device :=
  { device_id := "u", heading := 350, latitude := 0, longitude := 0, accuracy := 0 }

def devV : Models.Device :=
  { device_id := "v", heading := 5, latitude := 0, longitude := 0, accuracy := 0 }

def psEmpty : PairingService.State := { pairings := fun _ => none }

def regEmpty : String → Option Models.Device := fun _ => none

/-- C7 counterexample: `PairingService.pair_device` (cited by the claim as
a user of the heading difference) uses the raw `|h1 - h2|`: two co-located
devices with headings 350° and 5° — min-form difference 15°, well inside
pair_device's 45° gate, distance 0 < 50 m — are nevertheless NOT paired,
because the code computed |350 - 5| = 345. -/
theorem C7_counterexample :
    PairingService.pair_device regEmpty psEmpty devU [devV] = (psEmpty, none) ∧
    Api.heading_diff devU.heading devV.heading = 15 ∧
    Models.haversine devU.latitude devU.longitude devV.latitude devV.longitude = 0 ∧
    |devU.heading - devV.heading| = 345 := by
  have hstatic : PairingService.staticScan "u" [devV] = none := rfl
  have hfallback :
      PairingService.fallbackStatic regEmpty "u" PairingService.static_test_pairs = none := rfl
  have hgeneral : PairingService.generalScan psEmpty devU [devV] = none := by
    simp only [PairingService.generalScan]
    rw [if_neg (by decide), if_neg ?_]
    · rintro ⟨_, h45⟩
      norm_num [devU, devV] at h45
  refine ⟨?_, ?_, ?_, ?_⟩
  · simp only [PairingService.pair_device,
      show psEmpty.pairings devU.device_id = none from rfl,
      show PairingService.staticScan devU.device_id [devV] = none from hstatic,
      show PairingService.fallbackStatic regEmpty devU.device_id
        PairingService.static_test_pairs = none from hfallback, hgeneral]
  · norm_num [Api.heading_diff, min_def, devU, devV]
  · exact haversine_same _ _
  · norm_num [devU, devV]

/-- C5: cache-hit path.  If device `d` is paired with id `pid`, the
registry holds exactly one live state `p` for `pid`, and `p` still passes
the revalidation check (distance ≤ 100 m, heading difference ≤ 15°), then
`find_paired_device` returns the cached peer and its distance, increments
`cache_hits` by exactly one, and leaves `cache_misses`, the pairing map,
the spatial grid, and the connection list unchanged (the equality pins the
whole resulting state, so no grid rescan can have contributed). -/
theorem C5_cache_hit (st : Api.ManagerState) (d p : Api.Device) (pid : String)
    (hpid : st.pairings d.device_id = some pid) (hne : pid ≠ "")
    (hl : Api.liveMatches st.active_connections pid = [p])
    (h100 : Api.calculate_distance d p ≤ 100)
    (h15 : Api.heading_diff d.heading p.heading ≤ 15) :
    Api.find_paired_device false st d =
      ({ st with cache_hits := st.cache_hits + 1 }, some (none, p, Api.calculate_distance d p)) := by
  unfold Api.find_paired_device
  rw [get_cached_hit st d p pid hpid hne hl h100 h15]

/-- C5 witness: in `stD`, device A is paired with B, B is live at distance
0 with heading difference 0, and the resolve returns the cached pair with
only `cache_hits` bumped. -/
theorem C5_cache_hit_witness :
    (stD.pairings devA.device_id = some "B" ∧
      Api.liveMatches stD.active_connections "B" = [devB] ∧
      Api.calculate_distance devA devB ≤ 100 ∧
      Api.heading_diff devA.heading devB.heading ≤ 15) ∧
    Api.find_paired_device false stD devA =
      ({ stD with cache_hits := stD.cache_hits + 1 },
        some (none, devB, Api.calculate_distance devA devB)) := by
  have h1 : stD.pairings devA.device_id = some "B" := rfl
  have h2 : Api.liveMatches stD.active_connections "B" = [devB] := rfl
  have h3 : Api.calculate_distance devA devB ≤ 100 := by
    rw [calculate_distance_same devA devB rfl rfl]
    norm_num
  have h4 : Api.heading_diff devA.heading devB.heading ≤ 15 := by
    norm_num [Api.heading_diff, devA, devB, min_def]
  exact ⟨⟨h1, h2, h3, h4⟩, C5_cache_hit stD devA devB "B" h1 (by decide) h2 h3 h4⟩

/-- C6: cache-miss recovery.  If device `d`'s cached peer id `pid` is no
longer in the registry, or its live state is stale (distance > 100 m or
heading difference > 15°), the same `find_paired_device` call pops both
directional pairing entries, increments `cache_misses` by exactly one,
leaves `cache_hits`, the grid and the connection list alone, and falls
through to the fresh candidate scan (`scan_for_match`) — no error reaches
the caller, since the whole function is total. -/
theorem C6_cache_miss_recovery (st : Api.ManagerState) (d : Api.Device) (pid : String)
    (hpid : st.pairings d.device_id = some pid) (hne : pid ≠ "")
    (hgone : Api.liveMatches st.active_connections pid = [] ∨
      ∃ p, Api.liveMatches st.active_connections pid = [p] ∧
        (100 < Api.calculate_distance d p ∨ 15 < Api.heading_diff d.heading p.heading)) :
    ∃ st', Api.find_paired_device false st d = Api.scan_for_match false st' d ∧
      st'.pairings d.device_id = none ∧ st'.pairings pid = none ∧
      st'.cache_misses = st.cache_misses + 1 ∧ st'.cache_hits = st.cache_hits ∧
      st'.device_grid = st.device_grid ∧
      st'.active_connections = st.active_connections := by
  have hmiss : Api.cacheScan false d pid st.active_connections = none := by
    rcases hgone with h | ⟨p, hl, hs⟩
    · exact cacheScan_none_of_empty false d pid _ h
    · exact cacheScan_none_stale d p pid hs _ hl
  refine ⟨{ st with pairings := popMap (popMap st.pairings d.device_id) pid, cache_misses := st.cache_misses + 1 },
    ?_, ?_, ?_, rfl, rfl, rfl, rfl⟩
  · unfold Api.find_paired_device
    rw [get_cached_miss st d pid hpid hne hmiss]
  · simp [popMap]
  · simp [popMap]

/-- State for the cache-miss scenario: A paired with B but B's connection
is gone from the registry and the grid. -/
def stG : Api.ManagerState :=
  { active_connections := [(1, some devA, some devA)],
    device_grid := [((0, 0), [(1, devA)])],
    pairings := pairAB, cache_hits := 0, cache_misses := 0 }

/-- C6 witness: A's cached peer B has disconnected; the cache-miss theorem
applies with the peer-absent disjunct. -/
theorem C6_cache_miss_witness :
    (stG.pairings devA.device_id = some "B" ∧
      Api.liveMatches stG.active_connections "B" = []) ∧
    (∃ st', Api.find_paired_device false stG devA = Api.scan_for_match false st' devA ∧
      st'.pairings devA.device_id = none ∧ st'.pairings "B" = none ∧
      st'.cache_misses = stG.cache_misses + 1 ∧ st'.cache_hits = stG.cache_hits ∧
      st'.device_grid = stG.device_grid ∧
      st'.active_connections = stG.active_connections) :=
  ⟨⟨rfl, rfl⟩, C6_cache_miss_recovery stG devA "B" rfl (by decide) (Or.inl rfl)⟩

def devT1 : Models.Device :=
  { device_id := "test1", heading := 0, latitude := 0, longitude := 0, accuracy := 0 }

def devT2 : Models.Device :=
  { device_id := "test2", heading := 180, latitude := 0, longitude := 0, accuracy := 0 }

/-- C2 counterexample: `PairingService.pair_device` (cited by the claim)
forms a pairing for the hard-coded static ids "test1"/"test2" regardless of
the compatibility predicate and with no test-mode flag involved: here the
two devices' heading difference is 180° > 15°, yet the pairing is formed
and the matched candidate returned. -/
theorem C2_counterexample :
    (PairingService.pair_device regEmpty psEmpty devT1 [devT2]).2 = some devT2 ∧
    ((PairingService.pair_device regEmpty psEmpty devT1 [devT2]).1).pairings "test1" = some "test2" ∧
    ((PairingService.pair_device regEmpty psEmpty devT1 [devT2]).1).pairings "test2" = some "test1" ∧
    15 < Api.heading_diff devT1.heading devT2.heading := by
  refine ⟨rfl, rfl, rfl, ?_⟩
  norm_num [Api.heading_diff, devT1, devT2, min_def]

/-- C2 amended: restricted to `ConnectionManager.find_paired_device`
(api.py) with the test-mode flag off — when an unpaired reporting device
gets a matched result, the chosen candidate has a different id and
satisfies distance ≤ 100 m, headingDiff ≤ 15°, and isFacing(candidate,
reporter); `PairingService.pair_device` (thresholds 50 m / raw 45°, no
facing check, unconditional static test pairs) and api_new's
`check_pairing` (distance < 10 m only) do not enforce this predicate. -/
theorem C2_predicate_gate (st : Api.ManagerState) (back : Api.Device)
    (w : Option ℕ) (f : Api.Device) (dist : ℝ)
    (hunpaired : st.pairings back.device_id = none)
    (h : (Api.find_paired_device false st back).2 = some (w, f, dist)) :
    f.device_id ≠ back.device_id ∧ dist = Api.calculate_distance back f ∧
    Api.calculate_distance back f ≤ 100 ∧
    Api.heading_diff back.heading f.heading ≤ 15 ∧
    Api.is_facing f back := by
  rw [find_unpaired false st back hunpaired] at h
  obtain ⟨w', hw, hscan, heq⟩ := scan_for_match_spec false _ back w f dist h
  rcases scanCells_sound false back _ _ none (w', f, dist) hscan with
    h1 | ⟨c, hc, w2, f2, hm, hr, hne, hpass⟩
  · exact absurd h1 (by simp)
  · have hf : f = f2 := congrArg (fun t => t.2.1) hr
    subst hf
    have hdist : dist = Api.calculate_distance back f := congrArg (fun t => t.2.2) hr
    have hp : Api.calculate_distance back f ≤ 100 ∧
        (Api.heading_diff back.heading f.heading ≤ 15 ∨ false = true) ∧
        (false = true ∨ Api.is_facing f back) := hpass
    refine ⟨hne, hdist, hp.1, ?_, ?_⟩
    · rcases hp.2.1 with h15 | hfalse
      · exact h15
      · exact absurd hfalse (by simp)
    · rcases hp.2.2 with hfalse | hfacing
      · exact absurd hfalse (by simp)
      · exact hfacing

/-- C2 witness: the gate theorem applied to the concrete run on `stW`,
where C's resolve matches candidate A at distance 0. -/
theorem C2_predicate_witness :
    (stW.pairings devC.device_id = none ∧
      (Api.find_paired_device false stW devC).2 = some (some 1, devA, 0)) ∧
    (devA.device_id ≠ devC.device_id ∧ (0 : ℝ) = Api.calculate_distance devC devA ∧
      Api.calculate_distance devC devA ≤ 100 ∧
      Api.heading_diff devC.heading devA.heading ≤ 15 ∧
      Api.is_facing devA devC) := by
  have h1 : stW.pairings devC.device_id = none := rfl
  have h2 : (Api.find_paired_device false stW devC).2 = some (some 1, devA, 0) := by
    rw [findEvW]
  exact ⟨⟨h1, h2⟩, C2_predicate_gate stW devC (some 1) devA 0 h1 h2⟩

/-- C3: nearest-match selection.  For an unpaired reporting device whose
resolve returns a match, the pairing is recorded symmetrically for the
returned candidate, and the returned distance is ≤ the distance of every
candidate in the scanned 9-cell window that passes the compatibility
predicate — so with pairable candidates at 30 m and 60 m the 30 m one is
returned. -/
theorem C3_nearest_match (st : Api.ManagerState) (back : Api.Device)
    (w : Option ℕ) (f : Api.Device) (dist : ℝ)
    (hunpaired : st.pairings back.device_id = none)
    (h : (Api.find_paired_device false st back).2 = some (w, f, dist)) :
    ((Api.find_paired_device false st back).1).pairings back.device_id = some f.device_id ∧
    ((Api.find_paired_device false st back).1).pairings f.device_id = some back.device_id ∧
    ∀ c ∈ Api.get_neighboring_cells (Api.get_cell back),
      ∀ e ∈ Api.gridGet st.device_grid c, e.2.device_id ≠ back.device_id →
        Api.calculate_distance back e.2 ≤ 100 →
        Api.heading_diff back.heading e.2.heading ≤ 15 →
        Api.is_facing e.2 back →
        dist ≤ Api.calculate_distance back e.2 := by
  have h' := h
  rw [find_unpaired false st back hunpaired] at h'
  obtain ⟨w', hw, hscan, heq⟩ := scan_for_match_spec false _ back w f dist h'
  have hne : f.device_id ≠ back.device_id := by
    rcases scanCells_sound false back _ _ none (w', f, dist) hscan with
      h1 | ⟨c, hc, w2, f2, hm, hr, hne2, hp⟩
    · exact absurd h1 (by simp)
    · have hf : f = f2 := congrArg (fun t => t.2.1) hr
      rw [hf]
      exact hne2
  have hstate : Api.find_paired_device false st back =
      ({ { st with cache_misses := st.cache_misses + 1 } with pairings := setMap (setMap ({ st with cache_misses := st.cache_misses + 1 } : Api.ManagerState).pairings back.device_id f.device_id) f.device_id back.device_id },
        some (some w', f, dist)) := by
    rw [find_unpaired false st back hunpaired, heq]
  refine ⟨?_, ?_, ?_⟩
  · rw [hstate]
    simp [setMap, Ne.symm hne]
  · rw [hstate]
    simp [setMap]
  · intro c hc e he hne2 h100 h15 hfacing
    obtain ⟨w2, f2⟩ := e
    have hp : passes false back f2 := ⟨h100, Or.inl h15, Or.inr hfacing⟩
    have hmin := scanCells_min false back st.device_grid
      (Api.get_neighboring_cells (Api.get_cell back)) none (w', f, dist) hscan
      c hc w2 f2 he hne2 hp
    exact hmin

/-- C3 witness: on `stW` the resolve for C returns candidate A at distance
0; candidate B in the scanned cell also passes the predicate, and the
returned distance 0 is ≤ B's distance. -/
theorem C3_nearest_witness :
    (stW.pairings devC.device_id = none ∧
      (Api.find_paired_device false stW devC).2 = some (some 1, devA, 0) ∧
      ((0 : ℝ), (0 : ℝ)) ∈ Api.get_neighboring_cells (Api.get_cell devC) ∧
      (2, devB) ∈ Api.gridGet stW.device_grid ((0 : ℝ), (0 : ℝ)) ∧
      Api.calculate_distance devC devB ≤ 100) ∧
    ((Api.find_paired_device false stW devC).1).pairings devC.device_id = some devA.device_id ∧
    ((Api.find_paired_device false stW devC).1).pairings devA.device_id = some devC.device_id ∧
    (0 : ℝ) ≤ Api.calculate_distance devC devB := by
  have h1 : stW.pairings devC.device_id = none := rfl
  have h2 : (Api.find_paired_device false stW devC).2 = some (some 1, devA, 0) := by
    rw [findEvW]
  have hmain := C3_nearest_match stW devC (some 1) devA 0 h1 h2
  have hc : ((0 : ℝ), (0 : ℝ)) ∈ Api.get_neighboring_cells (Api.get_cell devC) := by
    rw [cells_devC]
    simp [cellsC]
  have he : (2, devB) ∈ Api.gridGet stW.device_grid ((0 : ℝ), (0 : ℝ)) := by
    rw [show stW.device_grid = gridA from rfl, gridGetA_eq]
    simp
  have h100 : Api.calculate_distance devC devB ≤ 100 := by
    rw [calculate_distance_same devC devB rfl rfl]
    norm_num
  have h15 : Api.heading_diff devC.heading devB.heading ≤ 15 := by
    norm_num [Api.heading_diff, devB, devC, min_def]
  have hmin := hmain.2.2 ((0 : ℝ), (0 : ℝ)) hc (2, devB) he (by decide) h100 h15 facing_devB
  exact ⟨⟨h1, h2, hc, he, h100⟩, hmain.1, hmain.2.1, hmin⟩

/-- C1 counterexample: in `stA` the pairing map is symmetric ({A↔B}, C
unpaired), yet C's resolve selects the already-paired candidate A and
overwrites `A→C`, leaving `B→A` dangling — after the resolve the map
contains `B→A` without `A→B`, so the claimed symmetry invariant fails. -/
theorem C1_counterexample :
    Api.PairSymm stA.pairings ∧
    ((Api.find_paired_device false stA devC).1).pairings "B" = some "A" ∧
    ((Api.find_paired_device false stA devC).1).pairings "A" = some "C" ∧
    ((Api.find_paired_device false stA devC).1).pairings "A" ≠ some "B" := by
  refine ⟨?_, ?_, ?_, ?_⟩
  · intro a b h
    by_cases ha : a = "A"
    · subst ha
      have hb : b = "B" := by
        have hA : stA.pairings "A" = some "B" := rfl
        rw [hA] at h
        exact (Option.some.inj h).symm
      subst hb
      rfl
    · by_cases ha2 : a = "B"
      · subst ha2
        have hb : b = "A" := by
          have hB : stA.pairings "B" = some "A" := rfl
          rw [hB] at h
          exact (Option.some.inj h).symm
        subst hb
        rfl
      · exfalso
        have hnone : stA.pairings a = none := by
          show pairAB a = none
          unfold pairAB
          rw [if_neg ha, if_neg ha2]
        rw [hnone] at h
        exact Option.noConfusion h
  · rw [findEvA]
    rfl
  · rw [findEvA]
    rfl
  · rw [findEvA]
    exact (by decide : (some "C" : Option String) ≠ some "B")

/-- C1 amended: disconnect leaves the pairing map unchanged (the unpair
step is dead — see C4 — so symmetry is trivially preserved), and a resolve
by an unpaired device preserves symmetry PROVIDED the selected candidate
is itself unpaired; when the candidate is already paired the code
overwrites one side and leaves the former peer dangling (see the
counterexample), so the symmetric-insertion guarantee holds only under
this proviso. -/
theorem C1_symmetry_amended :
    (∀ (ws : ℕ) (st : Api.ManagerState), (Api.disconnect ws st).pairings = st.pairings) ∧
    (∀ (st : Api.ManagerState) (back : Api.Device) (w : Option ℕ) (f : Api.Device) (dist : ℝ),
      Api.PairSymm st.pairings →
      st.pairings back.device_id = none →
      (Api.find_paired_device false st back).2 = some (w, f, dist) →
      st.pairings f.device_id = none →
      Api.PairSymm ((Api.find_paired_device false st back).1).pairings) := by
  constructor
  · intro ws st
    rw [disconnect_closed]
  · intro st back w f dist hsym hback h hfnone
    rw [find_unpaired false st back hback] at h
    obtain ⟨w', hw, hscan, heq⟩ := scan_for_match_spec false _ back w f dist h
    have hne : f.device_id ≠ back.device_id := by
      rcases scanCells_sound false back _ _ none (w', f, dist) hscan with
        h1 | ⟨c, hc, w2, f2, hm, hr, hne2, hp⟩
      · exact absurd h1 (by simp)
      · have hf : f = f2 := congrArg (fun t => t.2.1) hr
        rw [hf]
        exact hne2
    have hstate : Api.find_paired_device false st back =
        ({ { st with cache_misses := st.cache_misses + 1 } with pairings := setMap (setMap ({ st with cache_misses := st.cache_misses + 1 } : Api.ManagerState).pairings back.device_id f.device_id) f.device_id back.device_id },
          some (some w', f, dist)) := by
      rw [find_unpaired false st back hback, heq]
    rw [hstate]
    intro a b hab
    simp only [setMap] at hab ⊢
    by_cases hbf : a = f.device_id
    · rw [if_pos hbf] at hab
      have hb : b = back.device_id := (Option.some.inj hab).symm
      rw [hb, if_neg fun hh => hne hh.symm, if_pos rfl, hbf]
    · rw [if_neg hbf] at hab
      by_cases hbb : a = back.device_id
      · rw [if_pos hbb] at hab
        have hb : b = f.device_id := (Option.some.inj hab).symm
        rw [hb, if_pos rfl, hbb]
      · rw [if_neg hbb] at hab
        have hrev : st.pairings b = some a := hsym a b hab
        by_cases h1 : b = f.device_id
        · exfalso
          rw [h1, hfnone] at hrev
          exact Option.noConfusion hrev
        · by_cases h2 : b = back.device_id
          · exfalso
            rw [h2, hback] at hrev
            exact Option.noConfusion hrev
          · rw [if_neg h1, if_neg h2]
            exact hrev

/-- C1 witness: on `stW` (empty, hence symmetric, pairing map) C resolves
to the unpaired candidate A, and the resulting map is again symmetric. -/
theorem C1_symmetry_witness :
    (Api.PairSymm stW.pairings ∧ stW.pairings devC.device_id = none ∧
      (Api.find_paired_device false stW devC).2 = some (some 1, devA, 0) ∧
      stW.pairings devA.device_id = none) ∧
    Api.PairSymm ((Api.find_paired_device false stW devC).1).pairings := by
  have hsym : Api.PairSymm stW.pairings := fun a b hh => Option.noConfusion hh
  have h1 : stW.pairings devC.device_id = none := rfl
  have h2 : (Api.find_paired_device false stW devC).2 = some (some 1, devA, 0) := by
    rw [findEvW]
  have h3 : stW.pairings devA.device_id = none := rfl
  exact ⟨⟨hsym, h1, h2, h3⟩,
    C1_symmetry_amended.2 stW devC (some 1) devA 0 hsym h1 h2 h3⟩

/-! ### PairingService lemmas for C10 -/

theorem staticScan_ids (did : String) :
    ∀ cands o, PairingService.staticScan did cands = some o →
      o.device_id = "test2" ∨ o.device_id = "test1" := by
  intro cands
  induction cands with
  | nil => intro o h; exact Option.noConfusion h
  | cons o0 rest ih =>
    intro o h
    simp only [PairingService.staticScan] at h
    by_cases hmem : (did, o0.device_id) ∈ PairingService.static_test_pairs
    · rw [if_pos hmem] at h
      have ho : o = o0 := Option.some.inj h.symm
      subst ho
      simp only [PairingService.static_test_pairs, List.mem_cons,
        List.mem_singleton, List.not_mem_nil, or_false, Prod.mk.injEq] at hmem
      rcases hmem with ⟨_, h2⟩ | ⟨_, h2⟩
      · exact Or.inl h2
      · exact Or.inr h2
    · rw [if_neg hmem] at h
      exact ih o h

theorem generalScan_unpaired (ps : PairingService.State) (d : Models.Device) :
    ∀ cands o, PairingService.generalScan ps d cands = some o →
      ps.pairings o.device_id = none := by
  intro cands
  induction cands with
  | nil => intro o h; exact Option.noConfusion h
  | cons o0 rest ih =>
    intro o h
    simp only [PairingService.generalScan] at h
    by_cases hskip : d.device_id = o0.device_id ∨ (ps.pairings o0.device_id).isSome
    · rw [if_pos hskip] at h
      exact ih o h
    · rw [if_neg hskip] at h
      by_cases hcond : Models.haversine d.latitude d.longitude o0.latitude o0.longitude < 50 ∧
          |d.heading - o0.heading| < 45
      · rw [if_pos hcond] at h
        have ho : o = o0 := Option.some.inj h.symm
        subst ho
        rcases not_or.mp hskip with ⟨_, hns⟩
        exact Option.not_isSome_iff_eq_none.mp fun hs => hns hs
      · rw [if_neg hcond] at h
        exact ih o h

theorem fallbackStatic_ids (reg : String → Option Models.Device) (did : String)
    (r : String × String × Models.Device)
    (h : PairingService.fallbackStatic reg did PairingService.static_test_pairs = some r) :
    (r.1 = "test1" ∧ r.2.1 = "test2") ∨ (r.1 = "test2" ∧ r.2.1 = "test1") := by
  simp only [PairingService.static_test_pairs, PairingService.fallbackStatic] at h
  cases h1 : (if did = "test1" then reg "test2" else none) with
  | some dev =>
    rw [h1] at h
    left
    rw [← Option.some.inj h]
    exact ⟨rfl, rfl⟩
  | none =>
    rw [h1] at h
    cases h2 : (if did = "test2" then reg "test1" else none) with
    | some dev =>
      rw [h2] at h
      right
      rw [← Option.some.inj h]
      exact ⟨rfl, rfl⟩
    | none =>
      rw [h2] at h
      exact Option.noConfusion h

/-- Pairing-map effect of `_register_pair` on an uninvolved id. -/
theorem register_pair_other (ps : PairingService.State) (id1 id2 a : String)
    (h1 : a ≠ id1) (h2 : a ≠ id2) :
    (PairingService.register_pair ps id1 id2).pairings a = ps.pairings a := by
  simp only [PairingService.register_pair, setMap]
  rw [if_neg h2, if_neg h1]

/-- A PairingService state in which "test2" already holds a pairing with
device id "x". -/
def psX : PairingService.State :=
  { pairings := fun s => if s = "test2" then some "x"
      else if s = "x" then some "test2" else none }

/-- C10 counterexample: "test2" is already paired with "x", yet a
`pair_device` call for "test1" hits the static-test-pair path and
re-registers "test1"↔"test2", overwriting the existing `test2 → x`
entry — so a recorded pairing is NOT permanent. -/
theorem C10_counterexample :
    psX.pairings "test2" = some "x" ∧
    ((PairingService.pair_device regEmpty psX devT1 [devT2]).1).pairings "test2" = some "test1" :=
  ⟨rfl, rfl⟩

/-- C10 amended: a recorded pairing `a → b` is permanent and exclusive for
every id `a` outside the hard-coded static test ids "test1"/"test2": no
`pair_device` call changes `a`'s entry, a later `pair_device` for `a`
itself returns `b`'s registry state (`reg b`, which is `none` while `b` is
absent) without touching the state, and `validate_pairing` is a no-op.
For the static test ids themselves, re-registration can overwrite an
existing entry (see the counterexample). -/
theorem C10_permanence_amended (reg : String → Option Models.Device)
    (ps : PairingService.State) (d : Models.Device) (cands : List Models.Device)
    (a b : String) (hab : ps.pairings a = some b)
    (ha1 : a ≠ "test1") (ha2 : a ≠ "test2") :
    ((PairingService.pair_device reg ps d cands).1).pairings a = some b ∧
    (d.device_id = a → PairingService.pair_device reg ps d cands = (ps, reg b)) ∧
    PairingService.validate_pairing ps = ps := by
  refine ⟨?_, ?_, rfl⟩
  · unfold PairingService.pair_device
    cases hpd : ps.pairings d.device_id with
    | some peer => exact hab
    | none =>
      have hda : a ≠ d.device_id := by
        intro hh
        rw [← hh, hab] at hpd
        exact Option.noConfusion hpd
      cases hs : PairingService.staticScan d.device_id cands with
      | some o =>
        have ho := staticScan_ids d.device_id cands o hs
        refine Eq.trans (register_pair_other ps d.device_id o.device_id a hda ?_) hab
        rcases ho with ho | ho
        · rw [ho]; exact ha2
        · rw [ho]; exact ha1
      | none =>
        cases hg : PairingService.generalScan ps d cands with
        | some o =>
          have ho := generalScan_unpaired ps d cands o hg
          refine Eq.trans (register_pair_other ps d.device_id o.device_id a hda ?_) hab
          intro hh
          rw [← hh, hab] at ho
          exact Option.noConfusion ho
        | none =>
          cases hf : PairingService.fallbackStatic reg d.device_id
              PairingService.static_test_pairs with
          | some r =>
            obtain ⟨id1, id2, dev⟩ := r
            have hids := fallbackStatic_ids reg d.device_id (id1, id2, dev) hf
            refine Eq.trans (register_pair_other ps id1 id2 a ?_ ?_) hab
            · rcases hids with ⟨h1, _⟩ | ⟨h1, _⟩
              · have h1' : id1 = "test1" := h1
                rw [h1']
                exact ha1
              · have h1' : id1 = "test2" := h1
                rw [h1']
                exact ha2
            · rcases hids with ⟨_, h2⟩ | ⟨_, h2⟩
              · have h2' : id2 = "test2" := h2
                rw [h2']
                exact ha2
              · have h2' : id2 = "test1" := h2
                rw [h2']
                exact ha1
          | none => exact hab
  · intro hd
    unfold PairingService.pair_device
    rw [hd, hab]

def psY : PairingService.State :=
  { pairings := fun s => if s = "p" then some "q" else none }

def devP : Models.Device :=
  { device_id := "p", heading := 0, latitude := 0, longitude := 0, accuracy := 0 }

/-- C10 witness: the amended permanence theorem applied to a state in
which "p" (not a static test id) is paired with "q", with "q" absent from
the registry. -/
theorem C10_permanence_witness :
    (psY.pairings "p" = some "q" ∧ ("p" : String) ≠ "test1" ∧ ("p" : String) ≠ "test2") ∧
    (((PairingService.pair_device regEmpty psY devP []).1).pairings "p" = some "q" ∧
      (devP.device_id = "p" →
        PairingService.pair_device regEmpty psY devP [] = (psY, regEmpty "q")) ∧
      PairingService.validate_pairing psY = psY) :=
  ⟨⟨rfl, by decide, by decide⟩,
    C10_permanence_amended regEmpty psY devP [] "p" "q" rfl (by decide) (by decide)⟩
